import Mathlib

set_option maxHeartbeats 1000000

/-
Verification development for the medical-workflow stage pipeline.

The definitions below are a shallow embedding of the repository's Python
code (src/app/agents.py, src/app/utils.py, src/app/llm_client.py,
src/main.py).  JSON/Python values are modelled by the inductive `JVal`;
Python floats are modelled as exact decimals `mant * 10 ^ ex` (machine
floating point is approximated); `str.strip` / `str.lower` / the regex
class backslash-s are modelled over the ASCII whitespace and letter
ranges, which cover every character the embedded code compares against.
-/

namespace MedWorkflow

/-- The backquote character, written via its code point. -/
def backquoteChar : Char := Char.ofNat 96

/-- The opening curly brace character, written via its code point. -/
def lbraceChar : Char := Char.ofNat 123

/-- The closing curly brace character, written via its code point. -/
def rbraceChar : Char := Char.ofNat 125

/-- The single-quote character, written via its code point. -/
def squoteChar : Char := Char.ofNat 39

/-- Characters treated as whitespace by Python `str.strip()` and the
regex class backslash-s (ASCII approximation: space, tab, newline,
carriage return, vertical tab, form feed). -/
def pyIsSpace (c : Char) : Bool :=
  c = ' ' || c = '\t' || c = '\n' || c = '\r' || c = Char.ofNat 11 || c = Char.ofNat 12

/-- Python `str.strip()` on a character list: drop whitespace from both ends. -/
def pyStripL (l : List Char) : List Char :=
  ((l.dropWhile pyIsSpace).reverse.dropWhile pyIsSpace).reverse

/-- Python `str.strip()`. -/
def pyStrip (s : String) : String := String.mk (pyStripL s.data)

/-- Python `str.lower()` (ASCII approximation; the embedded comparisons
only involve ASCII letters and Chinese characters, which are unaffected). -/
def pyLower (s : String) : String := String.mk (s.data.map Char.toLower)

/-- Boolean prefix test on character lists. -/
def listIsPrefixOf : List Char → List Char → Bool
  | [], _ => true
  | _ :: _, [] => false
  | a :: as, b :: bs => a == b && listIsPrefixOf as bs

/-- Boolean contiguous-substring test on character lists. -/
def listInfixOf (needle : List Char) : List Char → Bool
  | [] => needle.isEmpty
  | b :: bs => listIsPrefixOf needle (b :: bs) || listInfixOf needle bs

/-- Python `needle in hay` on strings (contiguous substring). -/
def strContains (hay needle : String) : Bool := listInfixOf needle.data hay.data

/-- JSON values as decoded by Python `json.loads`: `null`/`None`,
booleans, ints, floats (exact decimal `mant * 10 ^ ex`; the non-finite
literals NaN/Infinity are not modelled), strings, lists and dicts. -/
inductive JVal where
  | null
  | bool (b : Bool)
  | int (n : Int)
  | float (mant ex : Int)
  | str (s : String)
  | list (items : List JVal)
  | dict (entries : List (String × JVal))

/-- A decoded JSON object (Python dict with string keys). -/
abbrev JObj := List (String × JVal)

/-- One hexadecimal digit character for a value below 16. -/
def hexDigitChar (n : Nat) : Char :=
  if n < 10 then Char.ofNat (48 + n) else Char.ofNat (97 + (n - 10))

/-- Two-digit hexadecimal rendering of a byte value. -/
def hexByte (n : Nat) : String :=
  String.mk [hexDigitChar (n / 16 % 16), hexDigitChar (n % 16)]

/-- Approximation of Python `repr` for a float stored as `mant * 10 ^ ex`
(shortest-roundtrip formatting of machine floats is approximated by plain
decimal rendering). -/
def floatRepr (mant ex : Int) : String :=
  if ex = 0 then toString mant ++ ".0"
  else if 0 < ex then toString (mant * (10 : Int) ^ ex.toNat) ++ ".0"
  else
    let digits := toString mant.natAbs
    let k := (-ex).toNat
    let sign := if mant < 0 then "-" else ""
    if digits.length ≤ k then
      sign ++ "0." ++ String.mk (List.replicate (k - digits.length) '0') ++ digits
    else
      sign ++ String.mk (digits.data.take (digits.length - k)) ++ "." ++
        String.mk (digits.data.drop (digits.length - k))

/-- Escape one character for Python string `repr` with quote `q`. -/
def pyCharEscape (q c : Char) : String :=
  if c = '\\' then "\\\\"
  else if c = q then "\\" ++ String.mk [q]
  else if c = '\n' then "\\n"
  else if c = '\r' then "\\r"
  else if c = '\t' then "\\t"
  else if c.toNat < 32 ∨ c.toNat = 127 then "\\x" ++ hexByte c.toNat
  else String.mk [c]

/-- Python `repr` of a string: prefers single quotes, switching to double
quotes when the string contains a single quote but no double quote. -/
def pyStrRepr (s : String) : String :=
  let q := if s.data.contains squoteChar && ! s.data.contains '"' then '"' else squoteChar
  String.mk [q] ++ String.join (s.data.map (pyCharEscape q)) ++ String.mk [q]

mutual

/-- Python `repr` of a decoded JSON value. -/
def pyRepr : JVal → String
  | .null => "None"
  | .bool true => "True"
  | .bool false => "False"
  | .int n => toString n
  | .float m e => floatRepr m e
  | .str s => pyStrRepr s
  | .list items => "[" ++ String.intercalate ", " (pyReprItems items) ++ "]"
  | .dict entries => "\x7b" ++ String.intercalate ", " (pyReprEntries entries) ++ "\x7d"

/-- `repr` of each element of a Python list. -/
def pyReprItems : List JVal → List String
  | [] => []
  | v :: vs => pyRepr v :: pyReprItems vs

/-- `repr` of each `key: value` entry of a Python dict. -/
def pyReprEntries : List (String × JVal) → List String
  | [] => []
  | (k, v) :: kvs => (pyStrRepr k ++ ": " ++ pyRepr v) :: pyReprEntries kvs

end

/-- Python `str()` of a decoded JSON value (a string stays itself;
containers and scalars render as their `repr`). -/
def pyStr : JVal → String
  | .str s => s
  | v => pyRepr v

/-- Python truthiness (`bool(value)`) of a decoded JSON value. -/
def pyTruthy : JVal → Bool
  | .null => false
  | .bool b => b
  | .int n => n != 0
  | .float m _ => m != 0
  | .str s => s != ""
  | .list items => ! items.isEmpty
  | .dict entries => ! entries.isEmpty

/-- Python `dict.get(k)` on an object's entry list, as an `Option`. -/
def objGet (entries : JObj) (k : String) : Option JVal :=
  (entries.find? (fun kv => kv.fst == k)).map Prod.snd

/-- Python `dict.get(k)` with default `None`. -/
def jget (o : JObj) (k : String) : JVal := (objGet o k).getD JVal.null

/-- `value.get(k)` after Python's `isinstance(value, dict)` guard:
a non-dict behaves as the empty dict. -/
def jvGet : JVal → String → JVal
  | .dict entries, k => jget entries k
  | _, _ => JVal.null

/-- Python `k in value` for a value guarded by `isinstance(value, dict)`. -/
def hasKey (v : JVal) (k : String) : Bool :=
  match v with
  | .dict entries => (objGet entries k).isSome
  | _ => false

/-- `agents._safe_text`: `None` maps to the default, anything else to
`str(value).strip()`, with the default substituted for an empty result. -/
def safe_text (v : JVal) (default : String) : String :=
  match v with
  | .null => default
  | v =>
    let t := pyStrip (pyStr v)
    if t = "" then default else t

/-- Loop body of `agents._to_str_list`: append stripped, non-empty,
not-yet-seen texts, stopping once `maxItems` entries are collected. -/
def toStrListAux (maxItems : Nat) : List JVal → List String → List String
  | [], acc => acc
  | v :: vs, acc =>
    let t := safe_text v ""
    let acc2 := if t ≠ "" ∧ t ∉ acc then acc ++ [t] else acc
    if maxItems ≤ acc2.length then acc2 else toStrListAux maxItems vs acc2

/-- `agents._to_str_list`: a non-list maps to `[]`, a list to its
deduplicated stripped texts capped at `maxItems`. -/
def to_str_list (v : JVal) (maxItems : Nat) : List String :=
  match v with
  | .list items => toStrListAux maxItems items []
  | _ => []

/-- `agents._to_str_list` applied to a Python list of strings. -/
def toStrListStrs (xs : List String) (maxItems : Nat) : List String :=
  toStrListAux maxItems (xs.map JVal.str) []

/-- Loop body of `utils.as_str_list` (no cap, and `str(item)` is applied
directly, without the `None` short-circuit of `_safe_text`). -/
def utilStrListAux : List JVal → List String → List String
  | [], acc => acc
  | v :: vs, acc =>
    let t := pyStrip (pyStr v)
    let acc2 := if t ≠ "" ∧ t ∉ acc then acc ++ [t] else acc
    utilStrListAux vs acc2

/-- `utils.as_str_list` applied to a Python list of strings. -/
def utilAsStrListStrs (xs : List String) : List String :=
  utilStrListAux (xs.map JVal.str) []

/-- `agents._as_bool`: booleans pass through; strings decode via the
loose textual encodings; anything else yields the default. -/
def as_bool (v : JVal) (default : Bool) : Bool :=
  match v with
  | .bool b => b
  | .str s =>
    let lowered := pyLower (pyStrip s)
    if lowered = "true" ∨ lowered = "1" ∨ lowered = "yes" ∨ lowered = "y" then true
    else if lowered = "false" ∨ lowered = "0" ∨ lowered = "no" ∨ lowered = "n" then false
    else default
  | _ => default

/-- `agents._has_value`. -/
def has_value (v : JVal) : Bool :=
  match v with
  | .null => false
  | .str s => pyStrip s != ""
  | .list items => items.any (fun x => safe_text x "" != "")
  | _ => true

/-- An exact decimal `mant * 10 ^ ex`, modelling a Python float value. -/
structure Dec where
  mant : Int
  ex : Int
deriving DecidableEq

/-- Digit characters to the natural number they denote. -/
def digitsToNat (ds : List Char) : Nat :=
  ds.foldl (fun a c => 10 * a + (c.toNat - 48)) 0

/-- Python `float(text)` on a string (finite decimal literals with
optional sign and exponent; the rarely used `inf`/`nan`/underscore forms
are treated as unparseable). -/
def pyFloatOfString (s : String) : Option Dec :=
  let l := pyStripL s.data
  let sgn : Int := match l with
    | '-' :: _ => -1
    | _ => 1
  let l1 := match l with
    | '+' :: r => r
    | '-' :: r => r
    | r => r
  let ip := l1.takeWhile Char.isDigit
  let l2 := l1.dropWhile Char.isDigit
  let fp := match l2 with
    | '.' :: r => r.takeWhile Char.isDigit
    | _ => []
  let l3 := match l2 with
    | '.' :: r => r.dropWhile Char.isDigit
    | r => r
  if ip.isEmpty ∧ fp.isEmpty then none
  else
    match l3 with
    | [] => some ⟨sgn * (digitsToNat (ip ++ fp) : Int), -(fp.length : Int)⟩
    | 'e' :: r | 'E' :: r =>
      let esgn : Int := match r with
        | '-' :: _ => -1
        | _ => 1
      let r1 := match r with
        | '+' :: r2 => r2
        | '-' :: r2 => r2
        | r2 => r2
      let ed := r1.takeWhile Char.isDigit
      let r2 := r1.dropWhile Char.isDigit
      if ed.isEmpty ∨ ¬ r2.isEmpty then none
      else some ⟨sgn * (digitsToNat (ip ++ fp) : Int), esgn * (digitsToNat ed : Int) - (fp.length : Int)⟩
    | _ => none

/-- `agents._to_optional_float`: `float(value)` returning `None` on
`TypeError`/`ValueError` (bools count as numbers in Python). -/
def to_optional_float (v : JVal) : Option Dec :=
  match v with
  | .int n => some ⟨n, 0⟩
  | .float m e => some ⟨m, e⟩
  | .bool b => some ⟨if b then 1 else 0, 0⟩
  | .str s => pyFloatOfString s
  | _ => none

/-- Value comparison of two exact decimals. -/
def decLe (a b : Dec) : Bool :=
  let e := min a.ex b.ex
  decide (a.mant * (10 : Int) ^ (a.ex - e).toNat ≤ b.mant * (10 : Int) ^ (b.ex - e).toNat)

/-- `max(0.0, min(1.0, c))` on the decimal model. -/
def clamp01 (c : Dec) : Dec :=
  if decLe ⟨1, 0⟩ c then ⟨1, 0⟩
  else if decLe c ⟨0, 0⟩ then ⟨0, 0⟩
  else c

/-- Truncation toward zero of `mant * 10 ^ ex` (Python `int(float)`). -/
def decTrunc (mant ex : Int) : Int :=
  if 0 ≤ ex then mant * (10 : Int) ^ ex.toNat
  else Int.tdiv mant ((10 : Int) ^ (-ex).toNat)

/-- The sentinel text used when no reference documents are present. -/
def noDocsSentinel : String := "无上传参考材料"

/-- `agents._build_document_context`: numbered reference-material blocks
joined and truncated to `maxChars` characters, or the sentinel. -/
def build_document_context (documentsText : JVal) (maxChars : Nat) : String :=
  match documentsText with
  | .list items =>
    let blocks := items.enum.filterMap (fun p =>
      let text := safe_text p.snd ""
      if text = "" then none
      else some ("参考材料" ++ toString (p.fst + 1) ++ ":\n" ++ text))
    if blocks.isEmpty then noDocsSentinel
    else String.mk ((String.intercalate "\n\n" blocks).data.take maxChars)
  | _ => noDocsSentinel

/-- The cumulative patient record produced by `IntakeAgent._normalize_patient_info`.
`age` keeps the raw Python value stored in the dict (int, text or an
inherited value); `extras` keeps entries of the pre-existing record whose
keys are outside the ten known fields (Python `dict.update` preserves them). -/
structure PatientInfo where
  age : JVal
  sex : String
  chief_complaint : String
  duration : String
  severity : String
  symptoms : List String
  allergies : List String
  chronic_diseases : List String
  current_meds : List String
  additional_notes : String
  extras : JObj

/-- `IntakeAgent.REQUIRED_FIELDS`. -/
def requiredFields : List String := ["chief_complaint", "duration", "severity"]

/-- `IntakeAgent.LIST_FIELDS`. -/
def listFields : List String := ["symptoms", "allergies", "chronic_diseases", "current_meds"]

/-- `IntakeAgent.KNOWN_FIELDS`. -/
def knownFields : List String :=
  ["age", "sex", "chief_complaint", "duration", "severity", "symptoms",
   "allergies", "chronic_diseases", "current_meds", "additional_notes"]

/-- The `except` path of the age merge: `_safe_text` the raw value, try
`int(float(text))`, and on failure store the text itself. An empty text
leaves the field untouched (`None`). -/
def ageFromText (v : JVal) : Option JVal :=
  let ageText := safe_text v ""
  if ageText = "" then none
  else
    match pyFloatOfString ageText with
    | some d => some (.int (decTrunc d.mant d.ex))
    | none => some (.str ageText)

/-- The age branch of `_normalize_patient_info`: a non-negative number
is truncated to int; otherwise the textual path applies; `None` keeps
the previously merged value. Python counts bools as ints, and both bools
compare `>= 0`. -/
def mergeAge (src existing : JVal) : JVal :=
  if hasKey src "age" then
    let ageRaw := jvGet src "age"
    let ageVal : Option JVal :=
      match ageRaw with
      | .int n => if 0 ≤ n then some (.int n) else ageFromText ageRaw
      | .float m e => if 0 ≤ m then some (.int (decTrunc m e)) else ageFromText (.float m e)
      | .bool b => some (.int (if b then 1 else 0))
      | v => ageFromText v
    match ageVal with
    | some v => v
    | none => jvGet existing "age"
  else jvGet existing "age"

/-- Scalar-field merge of `_normalize_patient_info`: a key present in the
model output is written as `_safe_text(source[f])` (then re-passed through
`_safe_text` by the final loop); an absent key keeps the existing value,
passed through `_safe_text` by the final loop. -/
def mergeScalar (src existing : JVal) (f : String) : String :=
  if hasKey src f then safe_text (JVal.str (safe_text (jvGet src f) "")) ""
  else safe_text (jvGet existing f) ""

/-- List-field merge of `_normalize_patient_info`: the model's list, when
the key is present, otherwise the existing value, both through `_to_str_list`. -/
def mergeList (src existing : JVal) (f : String) : List String :=
  if hasKey src f then to_str_list (jvGet src f) 20
  else to_str_list (jvGet existing f) 20

/-- Entries of a dict value, empty for a non-dict. -/
def entriesOfDict : JVal → JObj
  | .dict kvs => kvs
  | _ => []

/-- `IntakeAgent._normalize_patient_info` (src/app/agents.py lines 168-219). -/
def normalize_patient_info (rawPatientInfo existing : JVal) : PatientInfo :=
  { age := mergeAge rawPatientInfo existing
    sex := mergeScalar rawPatientInfo existing "sex"
    chief_complaint := mergeScalar rawPatientInfo existing "chief_complaint"
    duration := mergeScalar rawPatientInfo existing "duration"
    severity := mergeScalar rawPatientInfo existing "severity"
    symptoms := mergeList rawPatientInfo existing "symptoms"
    allergies := mergeList rawPatientInfo existing "allergies"
    chronic_diseases := mergeList rawPatientInfo existing "chronic_diseases"
    current_meds := mergeList rawPatientInfo existing "current_meds"
    additional_notes := mergeScalar rawPatientInfo existing "additional_notes"
    extras := (entriesOfDict existing).filter (fun kv => decide (kv.fst ∉ knownFields)) }

/-- Scalar-field projection of the normalized record by field name. -/
def piScalar (pi : PatientInfo) (f : String) : String :=
  if f = "sex" then pi.sex
  else if f = "chief_complaint" then pi.chief_complaint
  else if f = "duration" then pi.duration
  else if f = "severity" then pi.severity
  else if f = "additional_notes" then pi.additional_notes
  else ""

/-- `_has_value(patient_info.get(field))` for a required (string) field. -/
def requiredHasValue (pi : PatientInfo) (f : String) : Bool :=
  has_value (JVal.str (piScalar pi f))

/-- `IntakeAgent._is_required_complete` (src/app/agents.py lines 228-229). -/
def is_required_complete (pi : PatientInfo) : Bool :=
  requiredFields.all (requiredHasValue pi)

/-- `IntakeAgent._normalize_missing_fields`: the model's list restricted
to known field names, extended with required fields that are still empty. -/
def normalize_missing_fields (v : JVal) (pi : PatientInfo) : List String :=
  let fields := (to_str_list v 20).filter (fun x => decide (x ∈ knownFields))
  requiredFields.foldl
    (fun fs r => if requiredHasValue pi r = false ∧ r ∉ fs then fs ++ [r] else fs) fields

/-- The static question lookup table of `IntakeAgent._default_questions`. -/
def questionMap : List (String × String) :=
  [("age", "请问您的年龄是多少岁？"),
   ("sex", "请问您的性别是？"),
   ("chief_complaint", "请您用一句话描述最主要的不舒服是什么？"),
   ("duration", "这些症状持续了多久？例如 2 天、1 周、1 个月。"),
   ("severity", "目前严重程度如何？可用轻/中/重，或 0-10 分描述。"),
   ("symptoms", "除了主要不适，还有哪些伴随症状？"),
   ("allergies", "您是否有药物或食物过敏史？"),
   ("chronic_diseases", "是否有高血压、糖尿病等慢性病史？"),
   ("current_meds", "目前正在使用哪些药物或保健品？"),
   ("additional_notes", "还有其他你觉得重要的补充信息吗？")]

/-- `IntakeAgent._default_questions`. -/
def default_questions (missingFields : List String) : List String :=
  (missingFields.foldl
    (fun qs f =>
      match (questionMap.find? (fun kv => kv.fst == f)).map Prod.snd with
      | some q => if q ∉ qs then qs ++ [q] else qs
      | none => qs) []).take 8

/-- The outcome of one Intake pass. -/
structure IntakeOut where
  patient_info : PatientInfo
  is_complete : Bool
  missing_fields : List String
  missing_questions : List String
  assistant_reply : String
  next_action : String

/-- The normalization/decision part of `IntakeAgent.run`
(src/app/agents.py lines 266-305), taking the sanitized model output and
the pre-existing `patient_info` state value. -/
def intake_run (raw : JObj) (existing : JVal) : IntakeOut :=
  let patientInfo := normalize_patient_info (jget raw "patient_info") existing
  let missingFields := normalize_missing_fields (jget raw "missing_fields") patientInfo
  let missingQuestions := to_str_list (jget raw "missing_questions") 8
  let requiredComplete := is_required_complete patientInfo
  let modelComplete := as_bool (jget raw "is_complete") false
  let isComplete := requiredComplete && (modelComplete || missingFields.isEmpty)
  if isComplete then
    { patient_info := patientInfo, is_complete := true, missing_fields := [],
      missing_questions := [],
      assistant_reply := "收到，信息已基本完整，正在进入分诊与专科分析。",
      next_action := "continue" }
  else
    let missingFields1 :=
      if missingFields.isEmpty then normalize_missing_fields (JVal.list []) patientInfo
      else missingFields
    let missingQuestions1 :=
      if missingQuestions.isEmpty then default_questions missingFields1 else missingQuestions
    let missingQuestions2 :=
      if missingQuestions1.isEmpty then ["请补充主要不适、持续时间和严重程度。"]
      else missingQuestions1
    let lines := missingQuestions2.enum.map (fun p => toString (p.fst + 1) ++ ". " ++ p.snd)
    { patient_info := patientInfo, is_complete := false, missing_fields := missingFields1,
      missing_questions := missingQuestions2,
      assistant_reply := "为了更准确地判断，请补充以下信息：\n" ++ String.intercalate "\n" lines,
      next_action := "ask_user_more" }

/-- `RouterAgent.VALID_DEPARTMENTS`. -/
def valid_departments : List String := ["呼吸科", "心血管科", "消化内科", "全科"]

/-- `utils.route_fallback`: the deterministic keyword classifier over
`chief_complaint + additional_notes + symptoms`, checked respiratory →
cardiology → gastroenterology, defaulting to general practice. -/
def route_fallback (pi : PatientInfo) : String :=
  let text := pyLower (pi.chief_complaint ++ " " ++ pi.additional_notes ++ " " ++
    String.intercalate " " (utilAsStrListStrs pi.symptoms))
  if ["咳", "喘", "呼吸", "痰", "气短", "胸闷"].any (fun k => strContains text k) then "呼吸科"
  else if ["胸痛", "心悸", "心慌", "心率", "血压", "心口"].any (fun k => strContains text k) then "心血管科"
  else if ["腹痛", "腹泻", "反酸", "胃痛", "恶心", "呕吐"].any (fun k => strContains text k) then "消化内科"
  else "全科"

/-- The document-reference-marker step of `RouterAgent.run`
(src/app/agents.py lines 345-346), keyed on `"上传材料"`. -/
def router_doc_marker (docsPresent : Bool) (reason : String) : String :=
  if docsPresent ∧ strContains reason "上传材料" = false then reason ++ "（已参考上传材料）"
  else reason

/-- The route produced by `RouterAgent.run`. -/
structure RouteDecision where
  department : String
  reason : String
  key_evidence : List String
  confidence : Option Dec

/-- The validation/normalization part of `RouterAgent.run`
(src/app/agents.py lines 329-356). -/
def router_run (raw : JObj) (pi : PatientInfo) (documentContext : String) : RouteDecision :=
  let department0 := safe_text (jget raw "department") ""
  let reason0 := safe_text (jget raw "reason") ""
  let keyEvidence := to_str_list (jget raw "key_evidence") 8
  let confidence := (to_optional_float (jget raw "confidence")).map clamp01
  let department1 :=
    if department0 ∈ valid_departments then department0 else route_fallback pi
  let reason1 :=
    if department0 ∈ valid_departments then reason0
    else if reason0 = "" then "模型分诊结果不稳定，已使用规则兜底。" else reason0
  let reason2 := if reason1 = "" then "依据主要症状与病程信息进行分诊。" else reason1
  let reason3 := router_doc_marker (decide (documentContext ≠ noDocsSentinel)) reason2
  { department := department1, reason := reason3,
    key_evidence := keyEvidence, confidence := confidence }

/-- The document-reference-marker step of
`SpecialistAgent._normalize_specialist_result` (src/app/agents.py lines
425-426), keyed on `"已参考上传材料"`. -/
def assessment_doc_marker (docsPresent : Bool) (text : String) : String :=
  if docsPresent ∧ strContains text "已参考上传材料" = false then text ++ "（已参考上传材料）"
  else text

/-- The document-reference-marker step of
`SummaryAgent._normalize_final_result` (src/app/agents.py lines 548-549),
keyed on `"已参考上传材料"`. -/
def summary_doc_marker (docsPresent : Bool) (text : String) : String :=
  if docsPresent ∧ strContains text "已参考上传材料" = false then text ++ "（已参考上传材料）"
  else text

/-- The red-flag keyword list of `agents._has_red_flag`. -/
def red_flags : List String :=
  ["胸痛", "呼吸困难", "意识不清", "昏迷", "抽搐", "咯血", "高热不退"]

/-- `agents._has_red_flag` over the normalized record. -/
def has_red_flag (pi : PatientInfo) : Bool :=
  let mergedText := pyLower (pi.chief_complaint ++ " " ++ pi.additional_notes ++ " " ++
    String.intercalate " " (toStrListStrs pi.symptoms 20))
  red_flags.any (fun flag => strContains mergedText flag)

/-- One normalized medication suggestion. -/
structure MedicationSuggestion where
  name : String
  purpose : String
  otc : Bool
deriving DecidableEq

/-- The per-entry normalization of `medication_suggestions`: non-dict
entries are dropped; `otc` is `bool(item.get("otc", True))`, the Python
truthiness of the raw value when the key is present. -/
def medication_of_item : JVal → Option MedicationSuggestion
  | .dict kvs =>
    some { name := safe_text (jget kvs "name") "未命名药物"
           purpose := safe_text (jget kvs "purpose") "用于对症支持"
           otc := pyTruthy ((objGet kvs "otc").getD (JVal.bool true)) }
  | _ => none

/-- The normalized specialist finding. -/
structure SpecialistResult where
  preliminary_assessment : String
  possible_diagnoses : List String
  recommended_checks : List String
  medication_suggestions : List MedicationSuggestion
  risk_alerts : List String

/-- The urgent-care line appended to `risk_alerts` on a red flag. -/
def urgent_tip_specialist : String := "若出现持续胸痛、呼吸困难或意识改变，请立即急诊就医。"

/-- `SpecialistAgent._normalize_specialist_result` (src/app/agents.py
lines 385-434), including the non-dict guard on the raw result. -/
def normalize_specialist_result (rawResult : JVal) (pi : PatientInfo)
    (documentContext : String) : SpecialistResult :=
  let preliminary0 := safe_text (jvGet rawResult "preliminary_assessment")
    "当前信息不足，建议线下面诊并完善检查。"
  let possible := to_str_list (jvGet rawResult "possible_diagnoses") 20
  let checks0 := to_str_list (jvGet rawResult "recommended_checks") 20
  let riskAlerts0 := to_str_list (jvGet rawResult "risk_alerts") 20
  let meds := match jvGet rawResult "medication_suggestions" with
    | .list items => items.filterMap medication_of_item
    | _ => []
  let checks1 := if checks0 ≠ [] then ["血常规", "必要时影像学检查"] else checks0
  let riskAlerts1 :=
    if riskAlerts0 = [] then ["若症状持续或加重，请及时线下就医。"] else riskAlerts0
  let riskAlerts2 :=
    if has_red_flag pi then
      if urgent_tip_specialist ∈ riskAlerts1 then riskAlerts1
      else riskAlerts1 ++ [urgent_tip_specialist]
    else riskAlerts1
  let preliminary1 :=
    assessment_doc_marker (decide (documentContext ≠ noDocsSentinel)) preliminary0
  { preliminary_assessment := preliminary1, possible_diagnoses := possible,
    recommended_checks := checks1, medication_suggestions := meds,
    risk_alerts := riskAlerts2 }

/-- The normalized final summary. -/
structure FinalResult where
  diagnosis_summary : String
  prescription_advice : List String
  home_care : List String
  follow_up : List String
  emergency_signs : List String
  disclaimer : String

/-- The urgent-care line appended to `emergency_signs` on a red flag. -/
def urgent_tip_summary : String := "若出现持续胸痛或呼吸困难加重，请立即急诊就医。"

/-- `SummaryAgent._normalize_final_result` (src/app/agents.py lines
512-558), including the non-dict guard on the raw result. -/
def normalize_final_result (rawResult : JVal) (pi : PatientInfo)
    (documentContext : String) : FinalResult :=
  let diagnosis0 := safe_text (jvGet rawResult "diagnosis_summary")
    "当前结果为初步健康评估，建议结合线下面诊进一步明确。"
  let prescription0 := to_str_list (jvGet rawResult "prescription_advice") 20
  let homeCare0 := to_str_list (jvGet rawResult "home_care") 20
  let followUp0 := to_str_list (jvGet rawResult "follow_up") 20
  let emergency0 := to_str_list (jvGet rawResult "emergency_signs") 20
  let disclaimer := safe_text (jvGet rawResult "disclaimer")
    "本结果仅作健康参考，不替代医生面诊与处方。"
  let prescription1 :=
    if prescription0 = [] then ["可与医生讨论是否需要对症药物。"] else prescription0
  let homeCare1 :=
    if homeCare0 = [] then ["规律休息", "补充水分", "清淡饮食", "观察症状变化"] else homeCare0
  let followUp1 :=
    if followUp0 = [] then ["若 2-3 天无缓解或症状加重，请及时复诊。"] else followUp0
  let emergency1 :=
    if emergency0 = [] then ["持续胸痛", "呼吸困难", "意识改变", "高热不退"] else emergency0
  let emergency2 :=
    if has_red_flag pi then
      if urgent_tip_summary ∈ emergency1 then emergency1
      else emergency1 ++ [urgent_tip_summary]
    else emergency1
  let diagnosis1 :=
    summary_doc_marker (decide (documentContext ≠ noDocsSentinel)) diagnosis0
  { diagnosis_summary := diagnosis1, prescription_advice := prescription1,
    home_care := homeCare1, follow_up := followUp1, emergency_signs := emergency2,
    disclaimer := disclaimer }

/-- JSON whitespace (the characters `json.loads` skips between tokens). -/
def jsonWsChar (c : Char) : Bool :=
  c = ' ' || c = '\t' || c = '\n' || c = '\r'

/-- Value of one hexadecimal digit character. -/
def hexVal (c : Char) : Option Nat :=
  if '0' ≤ c ∧ c ≤ '9' then some (c.toNat - 48)
  else if 'a' ≤ c ∧ c ≤ 'f' then some (c.toNat - 87)
  else if 'A' ≤ c ∧ c ≤ 'F' then some (c.toNat - 55)
  else none

/-- A character from a code point; code points outside the Unicode scalar
range (which Python would keep as lone surrogates) map to U+FFFD. -/
def charOfCode (n : Nat) : Char :=
  if n < 0xd800 ∨ (0xe000 ≤ n ∧ n < 0x110000) then Char.ofNat n else Char.ofNat 0xfffd

/-- JSON string-body scanning after the opening quote: strict mode
(raw control characters rejected), the standard escapes, and
`\uXXXX` with surrogate-pair combination.  The fuel only bounds the
recursion depth; every step consumes at least one character, so a fuel
of one more than the remaining length never runs out. -/
def parseStrChars : Nat → List Char → List Char → Option (String × List Char)
  | 0, _, _ => none
  | _ + 1, _, [] => none
  | fuel + 1, acc, c :: rest =>
    if c = '"' then some (String.mk acc.reverse, rest)
    else if c = '\\' then
      match rest with
      | '"' :: r => parseStrChars fuel ('"' :: acc) r
      | '\\' :: r => parseStrChars fuel ('\\' :: acc) r
      | '/' :: r => parseStrChars fuel ('/' :: acc) r
      | 'b' :: r => parseStrChars fuel (Char.ofNat 8 :: acc) r
      | 'f' :: r => parseStrChars fuel (Char.ofNat 12 :: acc) r
      | 'n' :: r => parseStrChars fuel ('\n' :: acc) r
      | 'r' :: r => parseStrChars fuel ('\r' :: acc) r
      | 't' :: r => parseStrChars fuel ('\t' :: acc) r
      | 'u' :: h1 :: h2 :: h3 :: h4 :: r =>
        match hexVal h1, hexVal h2, hexVal h3, hexVal h4 with
        | some a, some b, some c1, some d =>
          let n := ((a * 16 + b) * 16 + c1) * 16 + d
          if 0xd800 ≤ n ∧ n ≤ 0xdbff then
            match r with
            | '\\' :: 'u' :: k1 :: k2 :: k3 :: k4 :: r2 =>
              match hexVal k1, hexVal k2, hexVal k3, hexVal k4 with
              | some e1, some e2, some e3, some e4 =>
                let m := ((e1 * 16 + e2) * 16 + e3) * 16 + e4
                if 0xdc00 ≤ m ∧ m ≤ 0xdfff then
                  parseStrChars fuel
                    (charOfCode (0x10000 + (n - 0xd800) * 0x400 + (m - 0xdc00)) :: acc) r2
                else parseStrChars fuel (charOfCode n :: acc) r
              | _, _, _, _ => parseStrChars fuel (charOfCode n :: acc) r
            | _ => parseStrChars fuel (charOfCode n :: acc) r
          else parseStrChars fuel (charOfCode n :: acc) r
        | _, _, _, _ => none
      | _ => none
    else if c.toNat < 32 then none
    else parseStrChars fuel (c :: acc) rest

/-- The fraction/exponent tail of a JSON number literal.  A literal with
neither part decodes to a Python int, otherwise to a float. -/
def parseNumTail (neg : Bool) (ip : Nat) (l : List Char) : Option (JVal × List Char) :=
  let fracRes : Option (List Char × List Char) :=
    match l with
    | '.' :: r =>
      let fd := r.takeWhile Char.isDigit
      if fd.isEmpty then none else some (fd, r.dropWhile Char.isDigit)
    | r => some ([], r)
  match fracRes with
  | none => none
  | some (fd, l2) =>
    let expRes : Option (Option Int × List Char) :=
      match l2 with
      | 'e' :: r | 'E' :: r =>
        let esgn : Int := match r with
          | '-' :: _ => -1
          | _ => 1
        let r1 := match r with
          | '+' :: r2 => r2
          | '-' :: r2 => r2
          | r2 => r2
        let ed := r1.takeWhile Char.isDigit
        if ed.isEmpty then none
        else some (some (esgn * (digitsToNat ed : Int)), r1.dropWhile Char.isDigit)
      | r => some (none, r)
    match expRes with
    | none => none
    | some (expv, l3) =>
      let sign : Int := if neg then -1 else 1
      match expv with
      | none =>
        if fd.isEmpty then some (.int (sign * ip), l3)
        else some (.float (sign * ((ip * 10 ^ fd.length + digitsToNat fd : Nat) : Int))
          (-(fd.length : Int)), l3)
      | some e =>
        some (.float (sign * ((ip * 10 ^ fd.length + digitsToNat fd : Nat) : Int))
          (e - (fd.length : Int)), l3)

/-- A JSON number literal: optional minus sign, then `0` or a nonzero
digit followed by digits (leading zeros rejected), then the tail. -/
def parseNumber (l : List Char) : Option (JVal × List Char) :=
  let neg := match l with
    | '-' :: _ => true
    | _ => false
  let l1 := match l with
    | '-' :: r => r
    | r => r
  match l1 with
  | c :: r =>
    if c = '0' then parseNumTail neg 0 r
    else if c.isDigit then
      parseNumTail neg (digitsToNat (c :: r.takeWhile Char.isDigit)) (r.dropWhile Char.isDigit)
    else none
  | [] => none

/-- Last-occurrence-wins insertion, matching Python dict update order
(an existing key keeps its position, its value is replaced). -/
def objInsert (kvs : JObj) (k : String) (v : JVal) : JObj :=
  if (objGet kvs k).isSome then kvs.map (fun kv => if kv.fst = k then (k, v) else kv)
  else kvs ++ [(k, v)]

mutual

/-- Fuel-indexed recursive-descent JSON value decoder, following
`json.loads` (strict mode, no NaN/Infinity). -/
def parseVal : Nat → List Char → Option (JVal × List Char)
  | 0, _ => none
  | fuel + 1, l =>
    match l.dropWhile jsonWsChar with
    | [] => none
    | c :: rest =>
      if c = '"' then
        (parseStrChars (rest.length + 1) [] rest).map (fun p => (JVal.str p.fst, p.snd))
      else if c = lbraceChar then parseMembersStart fuel rest
      else if c = '[' then parseElemsStart fuel rest
      else
        match c :: rest with
        | 't' :: 'r' :: 'u' :: 'e' :: r => some (.bool true, r)
        | 'f' :: 'a' :: 'l' :: 's' :: 'e' :: r => some (.bool false, r)
        | 'n' :: 'u' :: 'l' :: 'l' :: r => some (.null, r)
        | l2 => parseNumber l2

/-- Array contents after the opening bracket. -/
def parseElemsStart : Nat → List Char → Option (JVal × List Char)
  | 0, _ => none
  | fuel + 1, l =>
    match l.dropWhile jsonWsChar with
    | ']' :: r => some (.list [], r)
    | l2 => parseElems fuel l2 []

/-- Comma-separated array elements. -/
def parseElems : Nat → List Char → List JVal → Option (JVal × List Char)
  | 0, _, _ => none
  | fuel + 1, l, acc =>
    match parseVal fuel l with
    | none => none
    | some (v, r) =>
      match r.dropWhile jsonWsChar with
      | ',' :: r2 => parseElems fuel r2 (acc ++ [v])
      | ']' :: r2 => some (.list (acc ++ [v]), r2)
      | _ => none

/-- Object contents after the opening brace. -/
def parseMembersStart : Nat → List Char → Option (JVal × List Char)
  | 0, _ => none
  | fuel + 1, l =>
    match l.dropWhile jsonWsChar with
    | [] => none
    | c :: r => if c = rbraceChar then some (.dict [], r) else parseMembers fuel (c :: r) []

/-- Comma-separated `"key": value` object members, duplicate keys
resolved last-wins. -/
def parseMembers : Nat → List Char → JObj → Option (JVal × List Char)
  | 0, _, _ => none
  | fuel + 1, l, acc =>
    match l.dropWhile jsonWsChar with
    | '"' :: r =>
      match parseStrChars (r.length + 1) [] r with
      | none => none
      | some (k, r2) =>
        match r2.dropWhile jsonWsChar with
        | ':' :: r3 =>
          match parseVal fuel r3 with
          | none => none
          | some (v, r4) =>
            let acc2 := objInsert acc k v
            match r4.dropWhile jsonWsChar with
            | ',' :: r5 => parseMembers fuel r5 acc2
            | c :: r5 => if c = rbraceChar then some (.dict acc2, r5) else none
            | [] => none
        | _ => none
    | _ => none

end

/-- Python `json.loads`: decode one value and require only whitespace
after it.  The fuel bound exceeds any recursion depth reachable on the
input. -/
def json_loads (s : String) : Option JVal :=
  match parseVal (4 * (s.data.length + 1)) s.data with
  | some (v, rest) => if rest.dropWhile jsonWsChar = [] then some v else none
  | none => none

/-- Scan to the first occurrence of three consecutive backquotes and
return the remainder after them. -/
def findTriple : List Char → Option (List Char)
  | [] => none
  | c :: rest =>
    if c = backquoteChar ∧ rest.take 2 = [backquoteChar, backquoteChar] then some (rest.drop 2)
    else findTriple rest

/-- Collect characters up to the next three consecutive backquotes, or
fail when no closing fence exists. -/
def takeUntilTriple : List Char → Option (List Char)
  | [] => none
  | c :: rest =>
    if c = backquoteChar ∧ rest.take 2 = [backquoteChar, backquoteChar] then some []
    else (takeUntilTriple rest).map (fun t => c :: t)

/-- The optional case-insensitive `json` language tag after the opening
fence. -/
def dropJsonTag (l : List Char) : List Char :=
  if (l.take 4).map Char.toLower = ['j', 's', 'o', 'n'] then l.drop 4 else l

/-- The first capture of the fenced-code-block regex of
`LLMClient._cleanup_json_text`: opening fence, optional `json` tag,
leading whitespace skipped, then a lazy capture up to the closing fence. -/
def fencedCapture (l : List Char) : Option (List Char) :=
  match findTriple l with
  | none => none
  | some rest => takeUntilTriple ((dropJsonTag rest).dropWhile pyIsSpace)

/-- Index of the first occurrence of a character (`str.find`). -/
def idxOfChar (c : Char) : List Char → Option Nat
  | [] => none
  | a :: rest => if a = c then some 0 else (idxOfChar c rest).map (· + 1)

/-- The `raw[left : right + 1]` brace-slicing step of
`LLMClient._cleanup_json_text`, applied when the first brace precedes the
last closing brace. -/
def braceSliceStep (raw : List Char) : List Char :=
  match idxOfChar lbraceChar raw,
    (idxOfChar rbraceChar raw.reverse).map (fun i => raw.length - 1 - i) with
  | some left, some right =>
    if left < right then (raw.drop left).take (right + 1 - left) else raw
  | _, _ => raw

/-- `LLMClient._cleanup_json_text` on the character list: strip, extract
the first fenced block when one exists (stripping it), slice between the
outermost braces, and strip again. -/
def cleanupL (l : List Char) : List Char :=
  let raw := pyStripL l
  if raw = [] then []
  else
    let raw1 := match fencedCapture raw with
      | some blk => pyStripL blk
      | none => raw
    pyStripL (braceSliceStep raw1)

/-- `LLMClient._cleanup_json_text` (src/app/llm_client.py lines 73-88). -/
def cleanup_json_text (text : String) : String :=
  String.mk (cleanupL text.data)

/-- The parsing path of `LLMClient.chat_json` (src/app/llm_client.py
lines 127-144) applied to the already-stripped model text: direct parse
first, then parse of the cleaned-up text; any non-dict outcome yields the
empty mapping. -/
def chat_json_parse (text : String) : JObj :=
  if text = "" then []
  else
    match json_loads text with
    | some (.dict kvs) => kvs
    | some _ => []
    | none =>
      let cleaned := cleanup_json_text text
      if cleaned = "" then []
      else
        match json_loads cleaned with
        | some (.dict kvs) => kvs
        | _ => []

/-- One conversation turn (`{"role": ..., "content": ...}`). -/
structure ChatTurn where
  role : String
  content : String
deriving DecidableEq

/-- A heap of Python list objects holding conversation turns; list
values in Python dicts are references into such a heap, so a shallow
`dict(...)` copy shares the pointed-to lists. -/
structure ListHeap where
  cells : List (List ChatTurn)

/-- Dereference a history list object. -/
def ListHeap.read (h : ListHeap) (r : Nat) : List ChatTurn :=
  h.cells.getD r []

/-- In-place mutation of a history list object (`list.append`). -/
def ListHeap.write (h : ListHeap) (r : Nat) (v : List ChatTurn) : ListHeap :=
  ⟨h.cells.set r v⟩

/-- The fields of the session-state dict relevant to a consult turn.
`historyRef` is the reference to the `history` list object. -/
structure SessionStateDict where
  historyRef : Nat
  userInput : String
  documentsText : List String
deriving DecidableEq

/-- `main._append_history` (src/main.py lines 117-122): the state's
history is a list here, so the shared list object is mutated in place. -/
def append_history (heap : ListHeap) (historyRef : Nat) (role content : String) : ListHeap :=
  heap.write historyRef (heap.read historyRef ++ [⟨role, content⟩])

/-- The turn prologue of `main.consult_stream`'s event generator
(src/main.py lines 292-299): `state = dict(bucket["state"])` is a shallow
copy, so `state` holds the same history-list reference as the persisted
state; `user_input` and `documents_text` are fresh assignments on the
copy; `_append_history(state, "user", user_input)` then mutates the
shared history list. -/
def consult_turn_prologue (heap : ListHeap) (persisted : SessionStateDict)
    (userInput : String) (docsText : List String) : ListHeap × SessionStateDict :=
  let turnState : SessionStateDict :=
    { persisted with userInput := userInput, documentsText := docsText }
  let heap2 := append_history heap turnState.historyRef "user" userInput
  (heap2, turnState)

/-- The history that the *persisted* session state exposes after a turn
that failed before any commit (for example a stage returning a non-dict,
raised after the prologue): `bucket["state"]` is never reassigned, but
its history list object was already mutated by the prologue. -/
def persisted_history_after_failed_turn (heap : ListHeap) (persisted : SessionStateDict)
    (userInput : String) (docsText : List String) : List ChatTurn :=
  ((consult_turn_prologue heap persisted userInput docsText).fst).read persisted.historyRef

/-- A sample normalized patient record with a persistent-chest-pain
chief complaint, used to instantiate theorems at concrete inputs. -/
def samplePI : PatientInfo :=
  normalize_patient_info
    (JVal.dict [("chief_complaint", JVal.str "持续胸痛三天"),
                ("duration", JVal.str "3天"), ("severity", JVal.str "中")])
    (JVal.dict [])

/-- A sample complete Intake model output, used to instantiate theorems
at concrete inputs. -/
def sampleIntakeRaw : JObj :=
  [("patient_info", JVal.dict
     [("chief_complaint", JVal.str "咳嗽"), ("duration", JVal.str "2天"),
      ("severity", JVal.str "中")]),
   ("is_complete", JVal.bool true)]

/-! Auxiliary lemmas about the string model. -/

theorem str_data_append (s t : String) : (s ++ t).data = s.data ++ t.data := by
  cases s; cases t; rfl

theorem str_eq_empty_iff (s : String) : s = "" ↔ s.data = [] := by
  cases s
  simp [String.ext_iff]

theorem listIsPrefixOf_iff : ∀ n h : List Char, listIsPrefixOf n h = true ↔ n <+: h
  | [], h => by simp [listIsPrefixOf]
  | a :: as, [] => by simp [listIsPrefixOf]
  | a :: as, b :: bs => by
    simp [listIsPrefixOf, List.cons_prefix_cons, listIsPrefixOf_iff as bs, and_comm]

theorem listInfixOf_iff : ∀ n h : List Char, listInfixOf n h = true ↔ n <:+: h
  | n, [] => by
    simp [listInfixOf, List.isEmpty_iff]
  | n, b :: bs => by
    simp [listInfixOf, listIsPrefixOf_iff, listInfixOf_iff n bs, List.infix_cons_iff]

theorem strContains_iff (hay needle : String) :
    strContains hay needle = true ↔ needle.data <:+: hay.data :=
  listInfixOf_iff needle.data hay.data

theorem infix_append_left_my {l h m : List Char} (hi : l <:+: h) : l <:+: h ++ m := by
  obtain ⟨s, t, rfl⟩ := hi
  exact ⟨s, t ++ m, by simp⟩

theorem infix_append_right_my {l h m : List Char} (hi : l <:+: m) : l <:+: h ++ m := by
  obtain ⟨s, t, rfl⟩ := hi
  exact ⟨h ++ s, t, by simp⟩

theorem strContains_append_of_right {t : String} (s : String) {n : String}
    (h : strContains t n = true) : strContains (s ++ t) n = true := by
  rw [strContains_iff] at h ⊢
  rw [str_data_append]
  exact infix_append_right_my h

theorem strContains_append_of_left {s : String} (t : String) {n : String}
    (h : strContains s n = true) : strContains (s ++ t) n = true := by
  rw [strContains_iff] at h ⊢
  rw [str_data_append]
  exact infix_append_left_my h

theorem strContains_self (s : String) : strContains s s = true := by
  rw [strContains_iff]

theorem head_of_dropWhile_false {p : Char → Bool} :
    ∀ {l : List Char} {c : Char}, (l.dropWhile p).head? = some c → p c = false := by
  intro l
  induction l with
  | nil => intro c h; simp [List.dropWhile] at h
  | cons a t ih =>
    intro c h
    by_cases hp : p a
    · exact ih (by simpa [List.dropWhile, hp] using h)
    · simp [List.dropWhile, hp] at h
      subst h
      simpa using hp

theorem dropWhile_eq_self_of_head {p : Char → Bool} {l : List Char}
    (h : ∀ c, l.head? = some c → p c = false) : l.dropWhile p = l := by
  cases l with
  | nil => rfl
  | cons a t => simp [List.dropWhile, h a rfl]

theorem dropWhile_idem (p : Char → Bool) (l : List Char) :
    (l.dropWhile p).dropWhile p = l.dropWhile p :=
  dropWhile_eq_self_of_head (fun _ hc => head_of_dropWhile_false hc)

theorem pyStripL_head (l : List Char) {c : Char} (h : (pyStripL l).head? = some c) :
    pyIsSpace c = false := by
  unfold pyStripL at h
  have hpre : ((l.dropWhile pyIsSpace).reverse.dropWhile pyIsSpace).reverse <+:
      l.dropWhile pyIsSpace := by
    have hsuf : (l.dropWhile pyIsSpace).reverse.dropWhile pyIsSpace <:+
        (l.dropWhile pyIsSpace).reverse := List.dropWhile_suffix _
    simpa using hsuf.reverse
  obtain ⟨t, ht⟩ := hpre
  have : (l.dropWhile pyIsSpace).head? = some c := by
    rw [← ht]
    rcases hh : ((l.dropWhile pyIsSpace).reverse.dropWhile pyIsSpace).reverse with _ | ⟨x, xs⟩
    · rw [hh] at h; simp at h
    · rw [hh] at h; simp at h; simp [h]
  exact head_of_dropWhile_false this

theorem pyStripL_getLast (l : List Char) {c : Char}
    (h : (pyStripL l).getLast? = some c) : pyIsSpace c = false := by
  unfold pyStripL at h
  rw [← List.head?_reverse, List.reverse_reverse] at h
  exact head_of_dropWhile_false h

theorem pyStripL_idem (l : List Char) : pyStripL (pyStripL l) = pyStripL l := by
  have hA : (pyStripL l).dropWhile pyIsSpace = pyStripL l :=
    dropWhile_eq_self_of_head (fun c hc => pyStripL_head l hc)
  have hB : (pyStripL l).reverse.dropWhile pyIsSpace = (pyStripL l).reverse := by
    apply dropWhile_eq_self_of_head
    intro c hc
    rw [List.head?_reverse] at hc
    exact pyStripL_getLast l hc
  show (((pyStripL l).dropWhile pyIsSpace).reverse.dropWhile pyIsSpace).reverse = pyStripL l
  rw [hA, hB, List.reverse_reverse]

theorem pyStrip_idem (s : String) : pyStrip (pyStrip s) = pyStrip s := by
  unfold pyStrip
  rw [show (String.mk (pyStripL s.data)).data = pyStripL s.data from rfl, pyStripL_idem]

theorem safe_text_stripped (v : JVal) : pyStrip (safe_text v "") = safe_text v "" := by
  unfold safe_text
  cases v <;> simp only [] <;>
    first
      | rfl
      | (split
         · rfl
         · exact pyStrip_idem _)

theorem safe_text_str_of_stripped {t : String} (h : pyStrip t = t) :
    safe_text (JVal.str t) "" = t := by
  unfold safe_text
  simp only [pyStr, h]
  split
  · exact (by assumption : t = "").symm
  · rfl

theorem safe_text_retext (v : JVal) :
    safe_text (JVal.str (safe_text v "")) "" = safe_text v "" :=
  safe_text_str_of_stripped (safe_text_stripped v)

theorem toStrListAux_sound (m : Nat) :
    ∀ (items : List JVal) (acc : List String), acc.Nodup → (toStrListAux m items acc).Nodup
  | [], acc, h => h
  | v :: vs, acc, h => by
    unfold toStrListAux
    dsimp only
    split
    · rename_i hcond
      have h2 : (acc ++ [safe_text v ""]).Nodup := by
        simp [List.nodup_append, h, hcond.2]
      split
      · exact h2
      · exact toStrListAux_sound m vs _ h2
    · split
      · exact h
      · exact toStrListAux_sound m vs _ h

theorem to_str_list_nodup (v : JVal) (m : Nat) : (to_str_list v m).Nodup := by
  unfold to_str_list
  split
  · exact toStrListAux_sound m _ [] (by simp)
  · simp

theorem route_fallback_mem (pi : PatientInfo) : route_fallback pi ∈ valid_departments := by
  unfold route_fallback
  dsimp only
  split
  · simp [valid_departments]
  · split
    · simp [valid_departments]
    · split <;> simp [valid_departments]

/-- C6: the document-reference-marker insertion is idempotent — for every
text and every documents-present flag, applying the Router, Specialist or
Summary marker step twice yields the same result as applying it once, so
the text never carries the marker twice. -/
theorem doc_marker_idempotent (b : Bool) (t : String) :
    router_doc_marker b (router_doc_marker b t) = router_doc_marker b t ∧
    assessment_doc_marker b (assessment_doc_marker b t) = assessment_doc_marker b t ∧
    summary_doc_marker b (summary_doc_marker b t) = summary_doc_marker b t := by
  have hmark : strContains (t ++ "（已参考上传材料）") "上传材料" = true :=
    strContains_append_of_right t (by decide)
  have hmark2 : strContains (t ++ "（已参考上传材料）") "已参考上传材料" = true :=
    strContains_append_of_right t (by decide)
  refine ⟨?_, ?_, ?_⟩
  · unfold router_doc_marker
    split
    · rename_i hcond
      simp [hcond.1, hmark]
    · rfl
  · unfold assessment_doc_marker
    split
    · rename_i hcond
      simp [hcond.1, hmark2]
    · rfl
  · unfold summary_doc_marker
    split
    · rename_i hcond
      simp [hcond.1, hmark2]
    · rfl

/-- C2: the Router's department is always one of the four canonical
values; whenever the (stripped) model department is outside this set the
result equals the deterministic keyword classifier `route_fallback` over
the patient record, and when the model also gave no reason the final
reason carries the rule-based-fallback note. -/
theorem router_department_closure (raw : JObj) (pi : PatientInfo) (ctx : String) :
    (router_run raw pi ctx).department ∈ valid_departments ∧
    (safe_text (jget raw "department") "" ∉ valid_departments →
      (router_run raw pi ctx).department = route_fallback pi) ∧
    (safe_text (jget raw "department") "" ∉ valid_departments →
      safe_text (jget raw "reason") "" = "" →
      strContains (router_run raw pi ctx).reason
        "模型分诊结果不稳定，已使用规则兜底。" = true) := by
  unfold router_run
  dsimp only
  by_cases hd : safe_text (jget raw "department") "" ∈ valid_departments
  · exact ⟨by simp [hd], fun hc => absurd hd hc, fun hc => absurd hd hc⟩
  · refine ⟨by simp [hd, route_fallback_mem pi], fun _ => by simp [hd], fun _ hr => ?_⟩
    have hnote : ("模型分诊结果不稳定，已使用规则兜底。" : String) ≠ "" := by decide
    simp [hd, hr, hnote]
    unfold router_doc_marker
    split
    · exact strContains_append_of_left _ (strContains_self _)
    · exact strContains_self _

/-- Witness for C2 at a concrete invalid department. -/
theorem router_department_closure_witness :
    safe_text (jget ([("department", JVal.str "骨科")] : JObj) "department") ""
      ∉ valid_departments ∧
    (router_run [("department", JVal.str "骨科")] samplePI noDocsSentinel).department =
      route_fallback samplePI ∧
    route_fallback samplePI = "心血管科" ∧
    strContains (router_run [("department", JVal.str "骨科")] samplePI noDocsSentinel).reason
      "模型分诊结果不稳定，已使用规则兜底。" = true :=
  ⟨by decide,
   (router_department_closure [("department", JVal.str "骨科")] samplePI noDocsSentinel).2.1
     (by decide),
   by decide,
   (router_department_closure [("department", JVal.str "骨科")] samplePI noDocsSentinel).2.2
     (by decide) (by decide)⟩

theorem default_if_ne_nil {l d : List String} (hd : d ≠ []) : (if l = [] then d else l) ≠ [] := by
  split
  · exact hd
  · assumption

theorem red_append_ne_nil {l : List String} {tip : String} {b : Bool} (h : l ≠ []) :
    (if b = true then if tip ∈ l then l else l ++ [tip] else l) ≠ [] := by
  split
  · split
    · exact h
    · simp
  · exact h

/-- C3: after normalization, `risk_alerts` and every `FinalResult` list
field are non-empty for every model output (including a non-dict one),
and an empty list is replaced by its fixed deterministic default (with
the red-flag line appended on top of the default where applicable). -/
theorem safety_lists_nonempty (raw1 raw2 : JVal) (pi : PatientInfo) (ctx1 ctx2 : String) :
    ((normalize_specialist_result raw1 pi ctx1).risk_alerts ≠ [] ∧
     (normalize_final_result raw2 pi ctx2).prescription_advice ≠ [] ∧
     (normalize_final_result raw2 pi ctx2).home_care ≠ [] ∧
     (normalize_final_result raw2 pi ctx2).follow_up ≠ [] ∧
     (normalize_final_result raw2 pi ctx2).emergency_signs ≠ []) ∧
    (to_str_list (jvGet raw1 "risk_alerts") 20 = [] →
      (normalize_specialist_result raw1 pi ctx1).risk_alerts =
        ["若症状持续或加重，请及时线下就医。"] ++
          (if has_red_flag pi then [urgent_tip_specialist] else [])) ∧
    (to_str_list (jvGet raw2 "prescription_advice") 20 = [] →
      (normalize_final_result raw2 pi ctx2).prescription_advice =
        ["可与医生讨论是否需要对症药物。"]) ∧
    (to_str_list (jvGet raw2 "home_care") 20 = [] →
      (normalize_final_result raw2 pi ctx2).home_care =
        ["规律休息", "补充水分", "清淡饮食", "观察症状变化"]) ∧
    (to_str_list (jvGet raw2 "follow_up") 20 = [] →
      (normalize_final_result raw2 pi ctx2).follow_up =
        ["若 2-3 天无缓解或症状加重，请及时复诊。"]) ∧
    (to_str_list (jvGet raw2 "emergency_signs") 20 = [] →
      (normalize_final_result raw2 pi ctx2).emergency_signs =
        ["持续胸痛", "呼吸困难", "意识改变", "高热不退"] ++
          (if has_red_flag pi then [urgent_tip_summary] else [])) := by
  unfold normalize_specialist_result normalize_final_result
  dsimp only
  refine ⟨⟨?_, ?_, ?_, ?_, ?_⟩, ?_, ?_, ?_, ?_, ?_⟩
  · exact red_append_ne_nil (default_if_ne_nil (by decide))
  · exact default_if_ne_nil (by decide)
  · exact default_if_ne_nil (by decide)
  · exact default_if_ne_nil (by decide)
  · exact red_append_ne_nil (default_if_ne_nil (by decide))
  · intro h0
    by_cases hrf : has_red_flag pi <;> simp [h0, hrf] <;> decide
  · intro h0
    simp [h0]
  · intro h0
    simp [h0]
  · intro h0
    simp [h0]
  · intro h0
    by_cases hrf : has_red_flag pi <;> simp [h0, hrf] <;> decide

/-- Witness for C3 at the all-empty model response. -/
theorem safety_lists_nonempty_witness :
    to_str_list (jvGet JVal.null "risk_alerts") 20 = [] ∧
    (normalize_specialist_result JVal.null samplePI noDocsSentinel).risk_alerts =
      ["若症状持续或加重，请及时线下就医。"] ++
        (if has_red_flag samplePI then [urgent_tip_specialist] else []) ∧
    (normalize_final_result JVal.null samplePI noDocsSentinel).emergency_signs =
      ["持续胸痛", "呼吸困难", "意识改变", "高热不退"] ++
        (if has_red_flag samplePI then [urgent_tip_summary] else []) :=
  ⟨by decide,
   (safety_lists_nonempty JVal.null JVal.null samplePI noDocsSentinel noDocsSentinel).2.1
     (by decide),
   (safety_lists_nonempty JVal.null JVal.null samplePI noDocsSentinel noDocsSentinel).2.2.2.2.2
     (by decide)⟩

/-- C8: when the chief complaint contains "持续胸痛", the normalized
`risk_alerts` and `emergency_signs` each contain their urgent-care line
exactly once, for every model output. -/
theorem red_flag_exactly_once (raw1 raw2 : JVal) (pi : PatientInfo) (ctx1 ctx2 : String)
    (h : strContains pi.chief_complaint "持续胸痛" = true) :
    List.count urgent_tip_specialist
      (normalize_specialist_result raw1 pi ctx1).risk_alerts = 1 ∧
    List.count urgent_tip_summary
      (normalize_final_result raw2 pi ctx2).emergency_signs = 1 := by
  have hsub : ("胸痛".data : List Char) <:+: pi.chief_complaint.data :=
    List.IsInfix.trans (by decide) ((strContains_iff _ _).1 h)
  have hrf : has_red_flag pi = true := by
    unfold has_red_flag
    dsimp only
    have hfull : ("胸痛".data : List Char) <:+:
        (pi.chief_complaint ++ " " ++ pi.additional_notes ++ " " ++
          String.intercalate " " (toStrListStrs pi.symptoms 20)).data := by
      rw [str_data_append, str_data_append, str_data_append, str_data_append]
      exact infix_append_left_my (infix_append_left_my (infix_append_left_my
        (infix_append_left_my hsub)))
    have hlow : ("胸痛".data : List Char) <:+:
        (pyLower (pi.chief_complaint ++ " " ++ pi.additional_notes ++ " " ++
          String.intercalate " " (toStrListStrs pi.symptoms 20))).data := by
      have hmap := hfull.map Char.toLower
      rw [show (("胸痛".data : List Char)).map Char.toLower = "胸痛".data from by decide] at hmap
      exact hmap
    exact List.any_eq_true.2 ⟨"胸痛", by decide, (strContains_iff _ _).2 hlow⟩
  constructor
  · unfold normalize_specialist_result
    dsimp only
    rw [if_pos hrf]
    by_cases hmem : urgent_tip_specialist ∈
        (if to_str_list (jvGet raw1 "risk_alerts") 20 = []
         then ["若症状持续或加重，请及时线下就医。"]
         else to_str_list (jvGet raw1 "risk_alerts") 20)
    · rw [if_pos hmem]
      refine List.count_eq_one_of_mem ?_ hmem
      split
      · simp
      · exact to_str_list_nodup _ _
    · rw [if_neg hmem]
      rw [List.count_append]
      simp [List.count_eq_zero_of_not_mem hmem]
  · unfold normalize_final_result
    dsimp only
    rw [if_pos hrf]
    by_cases hmem : urgent_tip_summary ∈
        (if to_str_list (jvGet raw2 "emergency_signs") 20 = []
         then ["持续胸痛", "呼吸困难", "意识改变", "高热不退"]
         else to_str_list (jvGet raw2 "emergency_signs") 20)
    · rw [if_pos hmem]
      refine List.count_eq_one_of_mem ?_ hmem
      split
      · simp
      · exact to_str_list_nodup _ _
    · rw [if_neg hmem]
      rw [List.count_append]
      simp [List.count_eq_zero_of_not_mem hmem]

/-- Witness for C8 at a concrete persistent-chest-pain record. -/
theorem red_flag_exactly_once_witness :
    strContains samplePI.chief_complaint "持续胸痛" = true ∧
    List.count urgent_tip_specialist
      (normalize_specialist_result JVal.null samplePI noDocsSentinel).risk_alerts = 1 ∧
    List.count urgent_tip_summary
      (normalize_final_result JVal.null samplePI noDocsSentinel).emergency_signs = 1 :=
  ⟨by decide,
   (red_flag_exactly_once JVal.null JVal.null samplePI noDocsSentinel noDocsSentinel
     (by decide)).1,
   (red_flag_exactly_once JVal.null JVal.null samplePI noDocsSentinel noDocsSentinel
     (by decide)).2⟩

/-- C10: in Specialist normalization of `medication_suggestions`,
non-dict entries are dropped and a present `otc` key is decoded by Python
truthiness — so the strings "false" and "no" yield `otc = true` — while
the loose textual boolean decoder `_as_bool` (used for `is_complete`)
maps those strings to `false` and is not applied to `otc`. -/
theorem specialist_medication_otc (raw : JVal) (pi : PatientInfo) (ctx : String)
    (items : List JVal) (h : jvGet raw "medication_suggestions" = JVal.list items) :
    (normalize_specialist_result raw pi ctx).medication_suggestions =
      items.filterMap medication_of_item ∧
    (∀ x : JVal, (∀ kvs : JObj, x ≠ JVal.dict kvs) → medication_of_item x = none) ∧
    (∀ (kvs : JObj) (v : JVal), objGet kvs "otc" = some v →
      (medication_of_item (JVal.dict kvs)).map MedicationSuggestion.otc =
        some (pyTruthy v)) ∧
    pyTruthy (JVal.str "false") = true ∧ pyTruthy (JVal.str "no") = true ∧
    as_bool (JVal.str "false") false = false ∧ as_bool (JVal.str "no") false = false := by
  refine ⟨?_, ?_, ?_, by decide, by decide, by decide, by decide⟩
  · unfold normalize_specialist_result
    dsimp only
    rw [h]
  · intro x hx
    cases x <;> first | rfl | exact absurd rfl (hx _)
  · intro kvs v hv
    unfold medication_of_item
    dsimp only
    rw [hv]
    rfl

/-- Witness for C10: a present `otc: "false"` yields `otc = true` and a
non-dict entry is dropped. -/
theorem specialist_medication_otc_witness :
    (normalize_specialist_result
      (JVal.dict [("medication_suggestions", JVal.list
        [JVal.dict [("name", JVal.str "X"), ("otc", JVal.str "false")], JVal.str "skip"])])
      samplePI noDocsSentinel).medication_suggestions =
      ([JVal.dict [("name", JVal.str "X"), ("otc", JVal.str "false")],
        JVal.str "skip"].filterMap medication_of_item) ∧
    ([JVal.dict [("name", JVal.str "X"), ("otc", JVal.str "false")],
      JVal.str "skip"].filterMap medication_of_item).map MedicationSuggestion.otc = [true] :=
  ⟨(specialist_medication_otc
      (JVal.dict [("medication_suggestions", JVal.list
        [JVal.dict [("name", JVal.str "X"), ("otc", JVal.str "false")], JVal.str "skip"])])
      samplePI noDocsSentinel
      [JVal.dict [("name", JVal.str "X"), ("otc", JVal.str "false")], JVal.str "skip"]
      rfl).1,
   by decide⟩

theorem mergeScalar_stripped (src ex : JVal) (f : String) :
    pyStrip (mergeScalar src ex f) = mergeScalar src ex f := by
  unfold mergeScalar
  split
  · exact safe_text_stripped _
  · exact safe_text_stripped _

theorem is_required_complete_iff (pi : PatientInfo)
    (h1 : pyStrip pi.chief_complaint = pi.chief_complaint)
    (h2 : pyStrip pi.duration = pi.duration)
    (h3 : pyStrip pi.severity = pi.severity) :
    is_required_complete pi = true ↔
      (pi.chief_complaint ≠ "" ∧ pi.duration ≠ "" ∧ pi.severity ≠ "") := by
  have e : is_required_complete pi =
      ((pyStrip pi.chief_complaint != "") && ((pyStrip pi.duration != "") &&
        ((pyStrip pi.severity != "") && true))) := rfl
  rw [e, h1, h2, h3]
  simp [Bool.and_eq_true, bne_iff_ne]

/-- C1: the Intake stage's reported `is_complete` is true iff the three
required fields of the merged record are non-empty and the model either
affirmed completeness or the computed missing-fields list is empty; in
particular `is_complete = true` forces the three fields non-empty
regardless of the model's flag. -/
theorem intake_completeness (raw : JObj) (existing : JVal) :
    ((intake_run raw existing).is_complete = true ↔
      ((normalize_patient_info (jget raw "patient_info") existing).chief_complaint ≠ "" ∧
       (normalize_patient_info (jget raw "patient_info") existing).duration ≠ "" ∧
       (normalize_patient_info (jget raw "patient_info") existing).severity ≠ "" ∧
       (as_bool (jget raw "is_complete") false = true ∨
        normalize_missing_fields (jget raw "missing_fields")
          (normalize_patient_info (jget raw "patient_info") existing) = []))) ∧
    ((intake_run raw existing).is_complete = true →
      (normalize_patient_info (jget raw "patient_info") existing).chief_complaint ≠ "" ∧
      (normalize_patient_info (jget raw "patient_info") existing).duration ≠ "" ∧
      (normalize_patient_info (jget raw "patient_info") existing).severity ≠ "") := by
  have hic : (intake_run raw existing).is_complete =
      (is_required_complete (normalize_patient_info (jget raw "patient_info") existing) &&
        (as_bool (jget raw "is_complete") false ||
         (normalize_missing_fields (jget raw "missing_fields")
           (normalize_patient_info (jget raw "patient_info") existing)).isEmpty)) := by
    unfold intake_run
    dsimp only
    split
    · rename_i hcond
      exact hcond.symm
    · rename_i hcond
      exact (Bool.eq_false_iff.2 hcond).symm
  have hreq := is_required_complete_iff
    (normalize_patient_info (jget raw "patient_info") existing)
    (mergeScalar_stripped (jget raw "patient_info") existing "chief_complaint")
    (mergeScalar_stripped (jget raw "patient_info") existing "duration")
    (mergeScalar_stripped (jget raw "patient_info") existing "severity")
  rw [hic]
  simp only [Bool.and_eq_true, Bool.or_eq_true, List.isEmpty_iff, hreq]
  tauto

/-- Witness for C1: a complete record with an affirming model flag is
reported complete, hence has the three required fields non-empty. -/
theorem intake_completeness_witness :
    (intake_run sampleIntakeRaw (JVal.dict [])).is_complete = true ∧
    ((normalize_patient_info (jget sampleIntakeRaw "patient_info")
        (JVal.dict [])).chief_complaint ≠ "" ∧
     (normalize_patient_info (jget sampleIntakeRaw "patient_info")
        (JVal.dict [])).duration ≠ "" ∧
     (normalize_patient_info (jget sampleIntakeRaw "patient_info")
        (JVal.dict [])).severity ≠ "") :=
  ⟨by decide, (intake_completeness sampleIntakeRaw (JVal.dict [])).2 (by decide)⟩

/-- Counterexample for C4: a scalar field holding the non-empty value
"头痛" is overwritten with the empty string when the model output
supplies the key with an empty value, while omitting the key would have
retained it. -/
theorem merge_overwrite_counterexample :
    (normalize_patient_info (JVal.dict [("chief_complaint", JVal.str "")])
      (JVal.dict [("chief_complaint", JVal.str "头痛")])).chief_complaint = "" ∧
    (normalize_patient_info (JVal.dict [])
      (JVal.dict [("chief_complaint", JVal.str "头痛")])).chief_complaint = "头痛" :=
  ⟨rfl, rfl⟩

/-- C4 (amended): the Intake scalar merge keeps the previous value
exactly when the model output omits the key; when the key is present the
field is set to the stripped text of the supplied value — even when that
text is empty, so an explicitly supplied empty value clears a previously
non-empty field. -/
theorem merge_scalar_amended (raw existing : JVal) (f : String)
    (hf : f ∈ ["sex", "chief_complaint", "duration", "severity", "additional_notes"]) :
    (hasKey raw f = false →
      piScalar (normalize_patient_info raw existing) f = safe_text (jvGet existing f) "") ∧
    (hasKey raw f = true →
      piScalar (normalize_patient_info raw existing) f = safe_text (jvGet raw f) "") := by
  have main : ∀ g : String,
      (hasKey raw g = false → mergeScalar raw existing g = safe_text (jvGet existing g) "") ∧
      (hasKey raw g = true → mergeScalar raw existing g = safe_text (jvGet raw g) "") := by
    intro g
    constructor
    · intro hk
      unfold mergeScalar
      simp [hk]
    · intro hk
      unfold mergeScalar
      simp [hk, safe_text_retext]
  fin_cases hf
  · exact main "sex"
  · exact main "chief_complaint"
  · exact main "duration"
  · exact main "severity"
  · exact main "additional_notes"

/-- Witness for C4 (amended): the model's explicit empty
`chief_complaint` replaces the stored "头痛". -/
theorem merge_scalar_amended_witness :
    hasKey (JVal.dict [("chief_complaint", JVal.str "")]) "chief_complaint" = true ∧
    piScalar (normalize_patient_info (JVal.dict [("chief_complaint", JVal.str "")])
      (JVal.dict [("chief_complaint", JVal.str "头痛")])) "chief_complaint" =
      safe_text (jvGet (JVal.dict [("chief_complaint", JVal.str "")]) "chief_complaint") "" :=
  ⟨by decide,
   (merge_scalar_amended (JVal.dict [("chief_complaint", JVal.str "")])
     (JVal.dict [("chief_complaint", JVal.str "头痛")]) "chief_complaint"
     (by decide)).2 (by decide)⟩

/-- C9 (code-bug evidence): an unparseable model age is stored as raw
text — replacing the previously known integer 30 — and numeric text
parses to a negative integer, contradicting the record type
`age: Optional[int]` (non-negative) and the claim that unparseable
values are ignored. -/
theorem age_unparseable_stored :
    (normalize_patient_info (JVal.dict [("age", JVal.str "abc")])
      (JVal.dict [("age", JVal.int 30)])).age = JVal.str "abc" ∧
    (normalize_patient_info (JVal.dict [("age", JVal.str "-5")]) (JVal.dict [])).age =
      JVal.int (-5) ∧
    (normalize_patient_info (JVal.dict [("age", JVal.int 36)]) (JVal.dict [])).age =
      JVal.int 36 :=
  ⟨rfl, rfl, rfl⟩

/-- C5 (code-bug evidence): the consult-turn prologue mutates the
history list object shared with the persisted session state, so after a
turn that fails before commit the persisted history has gained the user
message even though `bucket["state"]` was never reassigned. -/
theorem failed_turn_mutates_persisted_history :
    persisted_history_after_failed_turn ⟨[[]]⟩ ⟨0, "", []⟩ "胸痛三天" [] =
      [⟨"user", "胸痛三天"⟩] ∧
    (⟨[[]]⟩ : ListHeap).read 0 = [] :=
  ⟨rfl, rfl⟩

theorem dropWhile_append_head {p : Char → Bool} {c : Char} (hc : p c = false)
    (xs : List Char) (ys : List Char) :
    (xs ++ c :: ys).dropWhile p = xs.dropWhile p ++ c :: ys := by
  induction xs with
  | nil => simp [List.dropWhile, hc]
  | cons a t ih =>
    by_cases hpa : p a
    · simp [List.dropWhile, hpa, ih]
    · simp [List.dropWhile, hpa]

theorem rdrop_append (xs ys : List Char) {c : Char} (hc : pyIsSpace c = false) :
    ((xs ++ c :: ys).reverse.dropWhile pyIsSpace).reverse =
      xs ++ c :: (ys.reverse.dropWhile pyIsSpace).reverse := by
  have h1 : (xs ++ c :: ys).reverse = ys.reverse ++ c :: xs.reverse := by
    simp [List.reverse_append, List.append_assoc]
  rw [h1, dropWhile_append_head hc]
  simp [List.reverse_append]

theorem findTriple_append {xs : List Char} (r : List Char) (hx : backquoteChar ∉ xs) :
    findTriple (xs ++ backquoteChar :: backquoteChar :: backquoteChar :: r) = some r := by
  induction xs with
  | nil => simp [findTriple]
  | cons a t ih =>
    have ha : ¬ a = backquoteChar := fun h => hx (h ▸ List.mem_cons_self a t)
    rw [List.cons_append]
    unfold findTriple
    rw [if_neg (fun hand => ha hand.1)]
    exact ih (fun hm => hx (List.mem_cons_of_mem a hm))

theorem takeUntilTriple_append {xs : List Char} (r : List Char) (hx : backquoteChar ∉ xs) :
    takeUntilTriple (xs ++ backquoteChar :: backquoteChar :: backquoteChar :: r) =
      some xs := by
  induction xs with
  | nil => simp [takeUntilTriple]
  | cons a t ih =>
    have ha : ¬ a = backquoteChar := fun h => hx (h ▸ List.mem_cons_self a t)
    rw [List.cons_append]
    unfold takeUntilTriple
    rw [if_neg (fun hand => ha hand.1)]
    rw [ih (fun hm => hx (List.mem_cons_of_mem a hm))]
    rfl

theorem dropJsonTag_json (l : List Char) :
    dropJsonTag ('j' :: 's' :: 'o' :: 'n' :: l) = l := by
  unfold dropJsonTag
  rw [show ('j' :: 's' :: 'o' :: 'n' :: l).take 4 = ['j', 's', 'o', 'n'] from rfl]
  rw [if_pos (by decide)]
  rfl

theorem pyStripL_dropWhile (l : List Char) :
    pyStripL (l.dropWhile pyIsSpace) = pyStripL l := by
  unfold pyStripL
  rw [dropWhile_idem]

theorem braceSliceStep_eq {S : List Char} (hh : S.head? = some lbraceChar)
    (hl : S.getLast? = some rbraceChar) : braceSliceStep S = S := by
  rcases S with _ | ⟨a, S'⟩
  · simp at hh
  · have ha : a = lbraceChar := by simpa using hh
    subst ha
    have h1 : idxOfChar lbraceChar (lbraceChar :: S') = some 0 := by simp [idxOfChar]
    have hrev : (lbraceChar :: S').reverse.head? = some rbraceChar := by
      rw [List.head?_reverse]; exact hl
    have h2 : idxOfChar rbraceChar ((lbraceChar :: S').reverse) = some 0 := by
      rcases hr : (lbraceChar :: S').reverse with _ | ⟨b, W⟩
      · exact absurd (hr ▸ hrev) (by simp)
      · have hb : b = rbraceChar := by rw [hr] at hrev; simpa using hrev
        subst hb; simp [idxOfChar]
    have hlen2 : 2 ≤ (lbraceChar :: S').length := by
      rcases S' with _ | ⟨x, T⟩
      · exfalso
        have : lbraceChar = rbraceChar := by simpa [List.getLast?] using hl
        exact absurd this (by decide)
      · simp
    unfold braceSliceStep
    rw [h1, h2]
    have hlt : (0 : Nat) < (lbraceChar :: S').length - 1 - 0 := by omega
    show (if 0 < (lbraceChar :: S').length - 1 - 0 then
        (((lbraceChar :: S').drop 0).take ((lbraceChar :: S').length - 1 - 0 + 1 - 0))
      else lbraceChar :: S') = lbraceChar :: S'
    rw [if_pos hlt]
    have hfix : (lbraceChar :: S').length - 1 - 0 + 1 - 0 = (lbraceChar :: S').length := by
      omega
    rw [List.drop_zero, hfix, List.take_length]

theorem cleanup_core (P J S : List Char) (hP : backquoteChar ∉ P)
    (hJ : backquoteChar ∉ J)
    (hh : (pyStripL J).head? = some lbraceChar)
    (hl : (pyStripL J).getLast? = some rbraceChar) :
    cleanupL (P ++ (backquoteChar :: backquoteChar :: backquoteChar ::
        'j' :: 's' :: 'o' :: 'n' ::
          (J ++ (backquoteChar :: backquoteChar :: backquoteChar :: S)))) =
      pyStripL J := by
  have hP'sub : backquoteChar ∉ P.dropWhile pyIsSpace :=
    fun hmem => hP ((List.dropWhile_suffix pyIsSpace).sublist.subset hmem)
  have hJ'sub : backquoteChar ∉ J.dropWhile pyIsSpace :=
    fun hmem => hJ ((List.dropWhile_suffix pyIsSpace).sublist.subset hmem)
  have hD : (P ++ (backquoteChar :: backquoteChar :: backquoteChar ::
      'j' :: 's' :: 'o' :: 'n' ::
        (J ++ (backquoteChar :: backquoteChar :: backquoteChar :: S)))).dropWhile pyIsSpace =
      P.dropWhile pyIsSpace ++ (backquoteChar :: backquoteChar :: backquoteChar ::
        'j' :: 's' :: 'o' :: 'n' ::
          (J ++ (backquoteChar :: backquoteChar :: backquoteChar :: S))) :=
    dropWhile_append_head (by decide) P _
  have hsplit : P.dropWhile pyIsSpace ++ (backquoteChar :: backquoteChar :: backquoteChar ::
      'j' :: 's' :: 'o' :: 'n' ::
        (J ++ (backquoteChar :: backquoteChar :: backquoteChar :: S))) =
      (P.dropWhile pyIsSpace ++ (backquoteChar :: backquoteChar :: backquoteChar ::
        'j' :: 's' :: 'o' :: 'n' :: (J ++ [backquoteChar, backquoteChar]))) ++
        backquoteChar :: S := by
    simp [List.append_assoc]
  have hraw : pyStripL (P ++ (backquoteChar :: backquoteChar :: backquoteChar ::
      'j' :: 's' :: 'o' :: 'n' ::
        (J ++ (backquoteChar :: backquoteChar :: backquoteChar :: S)))) =
      P.dropWhile pyIsSpace ++ (backquoteChar :: backquoteChar :: backquoteChar ::
        'j' :: 's' :: 'o' :: 'n' ::
          (J ++ (backquoteChar :: backquoteChar :: backquoteChar ::
            (S.reverse.dropWhile pyIsSpace).reverse))) := by
    unfold pyStripL
    rw [hD, hsplit, rdrop_append _ _ (by decide)]
    simp [List.append_assoc]
  have hrawne : P.dropWhile pyIsSpace ++ (backquoteChar :: backquoteChar :: backquoteChar ::
      'j' :: 's' :: 'o' :: 'n' ::
        (J ++ (backquoteChar :: backquoteChar :: backquoteChar ::
          (S.reverse.dropWhile pyIsSpace).reverse))) ≠ [] := by
    cases hc : P.dropWhile pyIsSpace <;> simp [hc]
  have hcap : fencedCapture (P.dropWhile pyIsSpace ++ (backquoteChar :: backquoteChar ::
      backquoteChar :: 'j' :: 's' :: 'o' :: 'n' ::
        (J ++ (backquoteChar :: backquoteChar :: backquoteChar ::
          (S.reverse.dropWhile pyIsSpace).reverse)))) =
      some (J.dropWhile pyIsSpace) := by
    unfold fencedCapture
    rw [findTriple_append _ hP'sub]
    dsimp only
    rw [dropJsonTag_json]
    rw [dropWhile_append_head (by decide) J _]
    exact takeUntilTriple_append _ hJ'sub
  unfold cleanupL
  dsimp only
  rw [hraw, if_neg hrawne, hcap]
  dsimp only
  rw [pyStripL_dropWhile]
  rw [braceSliceStep_eq hh hl, pyStripL_idem]

/-- C7: the `chat_json` parsing path always returns a mapping (it is a
total function): the empty text yields the empty mapping; a valid JSON
object embedded in a fenced code block with backquote-free surrounding
prose parses to the same mapping as parsing the embedded JSON directly;
garbage (both parses failing) yields the empty mapping; and valid
non-object JSON yields the empty mapping. -/
theorem sanitizer_round_trip :
    (chat_json_parse "" = []) ∧
    (∀ pre js suf : String, ∀ kvs : JObj,
      backquoteChar ∉ pre.data → backquoteChar ∉ js.data →
      (pyStripL js.data).head? = some lbraceChar →
      (pyStripL js.data).getLast? = some rbraceChar →
      json_loads (pre ++ "```json" ++ js ++ "```" ++ suf) = none →
      json_loads (pyStrip js) = some (JVal.dict kvs) →
      chat_json_parse (pre ++ "```json" ++ js ++ "```" ++ suf) = kvs) ∧
    (∀ text : String, json_loads text = none →
      json_loads (cleanup_json_text text) = none → chat_json_parse text = []) ∧
    (∀ (text : String) (v : JVal), json_loads text = some v →
      (∀ kvs : JObj, v ≠ JVal.dict kvs) → chat_json_parse text = []) := by
  refine ⟨rfl, ?_, ?_, ?_⟩
  · intro pre js suf kvs hpre hjs hh hl hfull hparse
    have hdata : (pre ++ "```json" ++ js ++ "```" ++ suf).data =
        pre.data ++ (backquoteChar :: backquoteChar :: backquoteChar ::
          'j' :: 's' :: 'o' :: 'n' ::
            (js.data ++ (backquoteChar :: backquoteChar :: backquoteChar :: suf.data))) := by
      rw [str_data_append, str_data_append, str_data_append, str_data_append]
      rw [show ("```json" : String).data =
        [backquoteChar, backquoteChar, backquoteChar, 'j', 's', 'o', 'n'] from rfl]
      rw [show ("```" : String).data =
        [backquoteChar, backquoteChar, backquoteChar] from rfl]
      simp [List.append_assoc]
    have hne : (pre ++ "```json" ++ js ++ "```" ++ suf) ≠ "" := by
      intro hx
      rw [str_eq_empty_iff, hdata] at hx
      cases hc : pre.data <;> rw [hc] at hx <;> simp at hx
    have hclean : cleanup_json_text (pre ++ "```json" ++ js ++ "```" ++ suf) = pyStrip js := by
      unfold cleanup_json_text
      rw [hdata, cleanup_core pre.data js.data suf.data hpre hjs hh hl]
      rfl
    have hne2 : pyStrip js ≠ "" := by
      intro hx
      rw [str_eq_empty_iff] at hx
      have hx2 : pyStripL js.data = [] := hx
      rw [hx2] at hh
      simp at hh
    unfold chat_json_parse
    rw [if_neg hne, hfull]
    dsimp only
    rw [hclean, if_neg hne2, hparse]
  · intro text h1 h2
    unfold chat_json_parse
    by_cases ht : text = ""
    · rw [if_pos ht]
    · rw [if_neg ht, h1]
      dsimp only
      by_cases hc : cleanup_json_text text = ""
      · rw [if_pos hc]
      · rw [if_neg hc, h2]
  · intro text v h hv
    unfold chat_json_parse
    by_cases ht : text = ""
    · rw [if_pos ht]
    · rw [if_neg ht, h]
      cases v <;> first | rfl | exact absurd rfl (hv _)

/-- Witness for C7: a JSON object in a fenced block surrounded by prose
parses to the embedded mapping. -/
theorem sanitizer_round_trip_witness :
    chat_json_parse ("结果如下 " ++ "```json" ++ "\n\x7b\"a\": 1\x7d\n" ++ "```" ++ " 完毕") =
      [("a", JVal.int 1)] :=
  sanitizer_round_trip.2.1 "结果如下 " "\n\x7b\"a\": 1\x7d\n" " 完毕" [("a", JVal.int 1)]
    (by decide) (by decide) rfl rfl rfl rfl

/-- Witness for C6 at a concrete reason text. -/
theorem doc_marker_idempotent_witness :
    router_doc_marker true (router_doc_marker true "依据主要症状分诊。") =
      router_doc_marker true "依据主要症状分诊。" :=
  (doc_marker_idempotent true "依据主要症状分诊。").1

end MedWorkflow
